import Mathlib

/-!
Verification of the roulette-simulator core (src/main.go).

Embedding conventions:
* Go `float64` money values are modelled as `ℚ` (exact decimals); the claims
  under consideration are algebraic and do not depend on floating-point rounding.
* Go `int` is modelled as `ℤ`; Go's `%` operator is truncated division, i.e. `Int.tmod`.
* The process-wide random source consumed by `rand.Intn(38)` is modelled by an
  explicit stream of pocket indices `ℕ → Fin 38` supplied to the simulator;
  every theorem quantifies over all such streams.
* Go string helpers (`strings.Split`, `strings.TrimSpace`, `strings.HasPrefix`,
  `strings.TrimPrefix`) are given structural char-list implementations with the
  same semantics on the inputs that occur (single-character separators, ASCII
  whitespace), so that concrete runs reduce in the kernel.
* `strconv.Atoi` / `strconv.ParseFloat` are standard-library collaborators whose
  code is not part of the repository; they are modelled for plain decimal
  literals (optional sign, digits, optional fractional part), unbounded.
-/

namespace Roulette

/-- Bet from src/main.go (fields `Type`, `Value`, `Amount`; `Type` is a Lean
keyword so the fields are lower-cased). -/
structure Bet where
  type : String
  value : ℤ
  amount : ℚ
deriving DecidableEq, Repr

/-- Strategy from src/main.go. The Go zero value `Strategy{}` is `⟨0, []⟩`. -/
structure Strategy where
  initialBankroll : ℚ
  bets : List Bet
deriving DecidableEq, Repr

/-- RouletteWheel from src/main.go. -/
structure RouletteWheel where
  numbers : List ℤ
deriving DecidableEq, Repr

/-- NewRouletteWheel from src/main.go: `numbers[i] = i+1` for `i = 0..35`,
then `numbers[36] = 0` and `numbers[37] = 0`. -/
def NewRouletteWheel : RouletteWheel :=
  ⟨((List.range 36).map (fun i => (i : ℤ) + 1)) ++ [0, 0]⟩

/-- Spin from src/main.go, with the call `rand.Intn(len(rw.Numbers))` replaced
by an explicitly supplied index below 38 (the wheel built by `NewRouletteWheel`
has 38 pockets). -/
def Spin (rw : RouletteWheel) (i : Fin 38) : ℤ :=
  rw.numbers.getD i.val 0

/-- contains from src/main.go (linear scan). -/
def contains : List ℤ → ℤ → Bool
  | [], _ => false
  | item :: rest, val => if item = val then true else contains rest val

/-- The red-number list from the `case "red"` branch of SimulateRoulette. -/
def redNumbers : List ℤ :=
  [1, 3, 5, 7, 9, 12, 14, 16, 18, 19, 21, 23, 25, 27, 30, 32, 34, 36]

/-- The black-number list from the `case "black"` branch of SimulateRoulette. -/
def blackNumbers : List ℤ :=
  [2, 4, 6, 8, 10, 11, 13, 15, 17, 20, 22, 24, 26, 28, 29, 31, 33, 35]

/-- Body of the inner per-bet loop of SimulateRoulette (src/main.go lines
92-121): skip when unaffordable, otherwise debit `bet.amount` and run the
`switch bet.Type` settlement (a switch with no default: an unmatched type
leaves the debited bankroll as is). Go's `%` on `int` is `Int.tmod`. -/
def placeBet (bankroll : ℚ) (bet : Bet) (winningNumber : ℤ) : ℚ :=
  if bankroll < bet.amount then bankroll
  else
    let debited := bankroll - bet.amount
    if bet.type = "number" then
      if bet.value = winningNumber then debited + bet.amount * 36 else debited
    else if bet.type = "even" then
      if Int.tmod winningNumber 2 = 0 ∧ winningNumber ≠ 0 then debited + bet.amount * 2
      else debited
    else if bet.type = "odd" then
      if Int.tmod winningNumber 2 ≠ 0 ∧ winningNumber ≠ 0 then debited + bet.amount * 2
      else debited
    else if bet.type = "red" then
      if contains redNumbers winningNumber then debited + bet.amount * 2 else debited
    else if bet.type = "black" then
      if contains blackNumbers winningNumber then debited + bet.amount * 2 else debited
    else debited

/-- One round of SimulateRoulette: every bet is settled in declaration order
against the same winning number. -/
def playRound (bankroll : ℚ) (bets : List Bet) (winningNumber : ℤ) : ℚ :=
  bets.foldl (fun b bet => placeBet b bet winningNumber) bankroll

/-- The outer `for i := 0; i < numGames; i++` loop of SimulateRoulette:
round `i` spins the wheel at the random stream's `i`-th index, then plays all
bets. Arguments: bets, spin-index stream, current round index, rounds left,
current bankroll. -/
def simulateRounds (bets : List Bet) (spins : ℕ → Fin 38) : ℕ → ℕ → ℚ → ℚ
  | _, 0, bankroll => bankroll
  | i, n + 1, bankroll =>
      simulateRounds bets spins (i + 1) n
        (playRound bankroll bets (Spin NewRouletteWheel (spins i)))

/-- SimulateRoulette from src/main.go, with the random source made explicit as
a stream of pocket indices. -/
def SimulateRoulette (strategy : Strategy) (numGames : ℕ) (spins : ℕ → Fin 38) : ℚ :=
  simulateRounds strategy.bets spins 0 numGames strategy.initialBankroll

/-! String helpers with Go semantics, implemented structurally on char lists. -/

/-- Character-level split; models Go `strings.Split` for a one-character
separator (split points removed, empty fields kept, result never empty). -/
def splitOnChar (sep : Char) : List Char → List (List Char)
  | [] => [[]]
  | c :: rest =>
    if c = sep then [] :: splitOnChar sep rest
    else
      match splitOnChar sep rest with
      | [] => [[c]]
      | g :: gs => (c :: g) :: gs

/-- Models Go `strings.Split(s, sep)` for a one-character separator. -/
def strSplit (sep : Char) (s : String) : List String :=
  (splitOnChar sep s.toList).map String.mk

/-- Models Go `strings.TrimSpace` (ASCII whitespace). -/
def goTrim (s : String) : String :=
  ⟨((s.toList.dropWhile Char.isWhitespace).reverse.dropWhile Char.isWhitespace).reverse⟩

/-- Models Go `strings.HasPrefix s pre`. -/
def goStartsWith (s pre : String) : Bool :=
  List.isPrefixOf pre.toList s.toList

/-- Models Go `strings.TrimPrefix` at a call site guarded by `HasPrefix`:
dropping the prefix's characters. -/
def strDrop (s : String) (n : ℕ) : String :=
  ⟨s.toList.drop n⟩

/-- Numeric value of a digit string (caller checks all chars are digits). -/
def digitsVal (cs : List Char) : ℕ :=
  cs.foldl (fun acc c => 10 * acc + (c.toNat - 48)) 0

/-- Models the standard-library collaborator `strconv.Atoi` (not part of this
repository): optional sign followed by one or more ASCII digits, unbounded. -/
def goAtoi (s : String) : Option ℤ :=
  let core : List Char → Option ℤ := fun cs =>
    if !cs.isEmpty && cs.all Char.isDigit then some (digitsVal cs : ℤ) else none
  match s.toList with
  | '+' :: cs => core cs
  | '-' :: cs => (core cs).map Neg.neg
  | cs => core cs

/-- Models the standard-library collaborator `strconv.ParseFloat` (not part of
this repository) on plain decimal literals: optional sign, digits with an
optional single dot, at least one digit; exponent/hex/Inf/NaN forms omitted.
The value is exact (`ℚ`). -/
def goParseFloat (s : String) : Option ℚ :=
  let core : List Char → Option ℚ := fun cs =>
    match cs.span Char.isDigit with
    | (intPart, []) =>
        if intPart.isEmpty then none else some (digitsVal intPart : ℚ)
    | (intPart, '.' :: frac) =>
        if frac.all Char.isDigit && !(intPart.isEmpty && frac.isEmpty) then
          some ((digitsVal intPart : ℚ) + (digitsVal frac : ℚ) / (10 : ℚ) ^ frac.length)
        else none
    | _ => none
  match s.toList with
  | '+' :: cs => core cs
  | '-' :: cs => (core cs).map Neg.neg
  | cs => core cs

/-- The error taxonomy of ParseStrategy (src/main.go lines 58, 65, 70, 74). -/
inductive ParseError where
  | InvalidBankroll
  | MalformedBet
  | InvalidBetValue
  | InvalidBetAmount
deriving DecidableEq, Repr

/-- The `for _, line := range lines` loop of ParseStrategy, threading the
strategy under construction. `"bankroll:"` has 9 characters and `"bet:"` has 4,
so `strings.TrimPrefix` under the `HasPrefix` guard is `strDrop` by that count.
Go checks `len(parts) != 3` and then indexes `parts[0..2]`; the three-element
match expresses exactly that. -/
def parseLines : List String → Strategy → Except ParseError Strategy
  | [], strategy => .ok strategy
  | line :: rest, strategy =>
    let l := goTrim line
    if goStartsWith l "bankroll:" then
      match goParseFloat (goTrim (strDrop l 9)) with
      | none => .error .InvalidBankroll
      | some bankroll => parseLines rest { strategy with initialBankroll := bankroll }
    else if goStartsWith l "bet:" then
      match splitOnChar ',' (strDrop l 4).toList with
      | [p0, p1, p2] =>
        match goAtoi (goTrim ⟨p1⟩) with
        | none => .error .InvalidBetValue
        | some betValue =>
          match goParseFloat (goTrim ⟨p2⟩) with
          | none => .error .InvalidBetAmount
          | some betAmount =>
            parseLines rest
              { strategy with
                  bets := strategy.bets ++ [⟨goTrim ⟨p0⟩, betValue, betAmount⟩] }
      | _ => .error .MalformedBet
    else parseLines rest strategy

/-- ParseStrategy from src/main.go: split the input on newlines and fold the
line handler over the Go zero value `Strategy{}`. -/
def ParseStrategy (input : String) : Except ParseError Strategy :=
  parseLines (strSplit '\n' input) ⟨0, []⟩

instance instDecEqExcept {ε α : Type} [DecidableEq ε] [DecidableEq α] :
    DecidableEq (Except ε α) := fun x y =>
  match x, y with
  | .ok a, .ok b => if h : a = b then isTrue (by rw [h]) else isFalse (by simp [h])
  | .error a, .error b => if h : a = b then isTrue (by rw [h]) else isFalse (by simp [h])
  | .ok _, .error _ => isFalse (by simp)
  | .error _, .ok _ => isFalse (by simp)

/-! Spec-side definitions, written from the spec's words (spec.md §4.2, §4.3,
§7); each is compared with the source-side embedding above by a refinement
theorem below. -/

/-- Red set as listed in the spec (§4.3). -/
def specRedSet : List ℤ :=
  [1, 3, 5, 7, 9, 12, 14, 16, 18, 19, 21, 23, 25, 27, 30, 32, 34, 36]

/-- Black set as listed in the spec (§4.3). -/
def specBlackSet : List ℤ :=
  [2, 4, 6, 8, 10, 11, 13, 15, 17, 20, 22, 24, 26, 28, 29, 31, 33, 35]

/-- Settlement table of the spec (§4.3): the credit a placed bet receives
against winning pocket `w`. A number bet pays `amount × 36` when the pocket
equals `bet.value`; even pays `amount × 2` on an even nonzero pocket; odd on an
odd pocket; red/black on membership in the fixed 18-member sets; zero pockets
never satisfy even/odd/red/black; anything else never wins; a losing bet
receives no credit. -/
def specCredit (bet : Bet) (w : ℤ) : ℚ :=
  if bet.type = "number" then (if w = bet.value then bet.amount * 36 else 0)
  else if bet.type = "even" then (if w % 2 = 0 ∧ w ≠ 0 then bet.amount * 2 else 0)
  else if bet.type = "odd" then (if w % 2 = 1 then bet.amount * 2 else 0)
  else if bet.type = "red" then (if w ∈ specRedSet then bet.amount * 2 else 0)
  else if bet.type = "black" then (if w ∈ specBlackSet then bet.amount * 2 else 0)
  else 0

/-- Per-line error of the spec's parsing contract (§4.2): a `bankroll:` line
fails with InvalidBankroll when its numeric text does not parse as a decimal; a
`bet:` line fails with MalformedBet unless it splits into exactly three
comma-separated fields, with InvalidBetValue when the value field is not an
integer, with InvalidBetAmount when the amount field is not a decimal; every
other line is ignored (no error). -/
def specLineError (line : String) : Option ParseError :=
  if goStartsWith (goTrim line) "bankroll:" then
    if (goParseFloat (goTrim (strDrop (goTrim line) 9))).isSome then none
    else some .InvalidBankroll
  else if goStartsWith (goTrim line) "bet:" then
    match splitOnChar ',' (strDrop (goTrim line) 4).toList with
    | [_, p1, p2] =>
      if (goAtoi (goTrim ⟨p1⟩)).isNone then some .InvalidBetValue
      else if (goParseFloat (goTrim ⟨p2⟩)).isNone then some .InvalidBetAmount
      else none
    | _ => some .MalformedBet
  else none

/-- Effect of one line on the strategy under construction, per the spec
(§4.2): a recognized bankroll line overwrites `initialBankroll`, a recognized
bet line appends one bet (type stored verbatim after trimming), every other
line contributes nothing. Error cases leave the strategy unchanged (they are
only reached when the parse fails). -/
def specLineUpdate (line : String) (s : Strategy) : Strategy :=
  if goStartsWith (goTrim line) "bankroll:" then
    match goParseFloat (goTrim (strDrop (goTrim line) 9)) with
    | some b => { s with initialBankroll := b }
    | none => s
  else if goStartsWith (goTrim line) "bet:" then
    match splitOnChar ',' (strDrop (goTrim line) 4).toList with
    | [p0, p1, p2] =>
      match goAtoi (goTrim ⟨p1⟩), goParseFloat (goTrim ⟨p2⟩) with
      | some v, some a => { s with bets := s.bets ++ [⟨goTrim ⟨p0⟩, v, a⟩] }
      | _, _ => s
    | _ => s
  else s

/-- Value of the last recognized bankroll line, per the spec's overwrite
semantics (§4.2: "If multiple bankroll lines appear, the last one wins");
`d` is the value in force before these lines. -/
def lastBankroll : List String → ℚ → ℚ
  | [], d => d
  | line :: rest, d =>
    if goStartsWith (goTrim line) "bankroll:" then
      match goParseFloat (goTrim (strDrop (goTrim line) 9)) with
      | some b => lastBankroll rest b
      | none => lastBankroll rest d
    else lastBankroll rest d

/-- Bets contributed by a list of lines, in declaration order, per the spec
(§4.2): each well-formed `bet:` line appends one bet with the type field
stored verbatim (after trimming); all other lines contribute nothing. -/
def collectBets : List String → List Bet
  | [] => []
  | line :: rest =>
    if goStartsWith (goTrim line) "bankroll:" then collectBets rest
    else if goStartsWith (goTrim line) "bet:" then
      match splitOnChar ',' (strDrop (goTrim line) 4).toList with
      | [p0, p1, p2] =>
        match goAtoi (goTrim ⟨p1⟩), goParseFloat (goTrim ⟨p2⟩) with
        | some v, some a => ⟨goTrim ⟨p0⟩, v, a⟩ :: collectBets rest
        | _, _ => collectBets rest
      | _ => collectBets rest
    else collectBets rest

/-! Basic lemmas. -/

lemma contains_eq_true_iff (l : List ℤ) (v : ℤ) : contains l v = true ↔ v ∈ l := by
  induction l with
  | nil => simp [contains]
  | cons a tl ih =>
    by_cases h : a = v
    · simp [contains, h]
    · have h' : ¬ v = a := fun hh => h hh.symm
      simp [contains, h, h', ih]

lemma wheel_mem_bounds : ∀ w ∈ NewRouletteWheel.numbers, 0 ≤ w ∧ w ≤ 36 := by decide

lemma redNumbers_eq_spec : redNumbers = specRedSet := rfl

lemma blackNumbers_eq_spec : blackNumbers = specBlackSet := rfl

lemma placeBet_skip (b : ℚ) (bet : Bet) (w : ℤ) (h : b < bet.amount) :
    placeBet b bet w = b := by
  simp [placeBet, h]

lemma placeBet_nonneg (b : ℚ) (bet : Bet) (w : ℤ) (hb : 0 ≤ b) (ha : 0 ≤ bet.amount) :
    0 ≤ placeBet b bet w := by
  simp only [placeBet]
  split_ifs <;> linarith

lemma playRound_nonneg (bets : List Bet) (hbets : ∀ bet ∈ bets, 0 ≤ bet.amount) :
    ∀ b : ℚ, 0 ≤ b → ∀ w : ℤ, 0 ≤ playRound b bets w := by
  induction bets with
  | nil => intro b hb w; simpa [playRound] using hb
  | cons x tl ih =>
    intro b hb w
    have hx : 0 ≤ x.amount := hbets x (List.mem_cons_self x tl)
    have htl : ∀ bet ∈ tl, 0 ≤ bet.amount := fun bet hbet => hbets bet (List.mem_cons_of_mem x hbet)
    simpa [playRound] using ih htl (placeBet b x w) (placeBet_nonneg b x w hb hx) w

lemma simulateRounds_nonneg (bets : List Bet) (spins : ℕ → Fin 38)
    (hbets : ∀ bet ∈ bets, 0 ≤ bet.amount) :
    ∀ (n i : ℕ) (b : ℚ), 0 ≤ b → 0 ≤ simulateRounds bets spins i n b := by
  intro n
  induction n with
  | zero => intro i b hb; simpa [simulateRounds] using hb
  | succ m ih =>
    intro i b hb
    exact ih (i + 1) _ (playRound_nonneg bets hbets b hb _)

lemma simulateRounds_nil_bets (spins : ℕ → Fin 38) :
    ∀ (n i : ℕ) (b : ℚ), simulateRounds [] spins i n b = b := by
  intro n
  induction n with
  | zero => intro i b; rfl
  | succ m ih => intro i b; simpa [simulateRounds, playRound] using ih (i + 1) b

/-! Claim theorems. -/

/-- Claim C1, counterexample: the strategy with bankroll 100 and the single
unrecognized bet `{foo, 0, 10}` does NOT yield the same final bankroll over one
round as the same strategy with that bet removed (90 versus 100), refuting
"that bet never alters the bankroll". -/
theorem unrecognized_bet_alters_bankroll_cex :
    SimulateRoulette ⟨100, [⟨"foo", 0, 10⟩]⟩ 1 (fun _ => 0) ≠
      SimulateRoulette ⟨100, []⟩ 1 (fun _ => 0) := by
  have h1 : SimulateRoulette ⟨100, [⟨"foo", 0, 10⟩]⟩ 1 (fun _ => 0) = 90 := by
    simp +decide [SimulateRoulette, simulateRounds, playRound, placeBet]
    norm_num
  have h2 : SimulateRoulette ⟨100, []⟩ 1 (fun _ => 0) = 100 := by decide
  rw [h1, h2]
  norm_num

/-- Claim C1, amended: a bet whose type string is not one of the five
recognized kinds never wins (it is never credited), but it is still debited:
when affordable it costs `bet.amount`, and when unaffordable it is skipped.
So such a bet does alter the bankroll whenever it is placed with a nonzero
amount. -/
theorem unrecognized_bet_debits_without_credit (b : ℚ) (bet : Bet) (w : ℤ)
    (h : bet.type ∉ (["number", "even", "odd", "red", "black"] : List String)) :
    placeBet b bet w = if b < bet.amount then b else b - bet.amount := by
  simp only [List.mem_cons, List.not_mem_nil, or_false, not_or] at h
  obtain ⟨h1, h2, h3, h4, h5⟩ := h
  simp [placeBet, h1, h2, h3, h4, h5]

/-- Claim C1 witness for the amended theorem at a concrete input. -/
theorem unrecognized_bet_debits_without_credit_witness :
    placeBet 100 ⟨"foo", 0, 10⟩ 1 = if (100 : ℚ) < 10 then 100 else 100 - 10 :=
  unrecognized_bet_debits_without_credit 100 ⟨"foo", 0, 10⟩ 1 (by decide)

/-- Claim C3: with a non-negative initial bankroll and non-negative bet
amounts, the simulated bankroll is non-negative at the end for any number of
games and any spin stream; moreover every bet below which the bankroll falls is
skipped entirely (no debit, no credit), and a debit is only taken when the
pre-debit bankroll covers it, leaving a non-negative balance immediately after
the debit. -/
theorem bankroll_nonneg (strategy : Strategy) (numGames : ℕ) (spins : ℕ → Fin 38)
    (h0 : 0 ≤ strategy.initialBankroll) (hb : ∀ bet ∈ strategy.bets, 0 ≤ bet.amount) :
    0 ≤ SimulateRoulette strategy numGames spins ∧
    (∀ (b : ℚ) (bet : Bet) (w : ℤ), b < bet.amount → placeBet b bet w = b) ∧
    (∀ (b : ℚ) (bet : Bet), bet.amount ≤ b → 0 ≤ b - bet.amount) := by
  refine ⟨?_, fun b bet w h => placeBet_skip b bet w h, fun b bet h => by linarith⟩
  exact simulateRounds_nonneg strategy.bets spins hb numGames 0 _ h0

/-- Claim C3 witness: the spec's own example, a zero bankroll with a
10-unit number bet over 100 rounds, never goes negative. -/
theorem bankroll_nonneg_witness :
    0 ≤ SimulateRoulette ⟨0, [⟨"number", 5, 10⟩]⟩ 100 (fun _ => 0) :=
  (bankroll_nonneg ⟨0, [⟨"number", 5, 10⟩]⟩ 100 (fun _ => 0) le_rfl
    (by intro bet hbet; rw [List.mem_singleton] at hbet; subst hbet; norm_num)).1

/-- Claim C4: zero games return the initial bankroll unchanged, and an empty
bet list returns the initial bankroll unchanged for every number of games
(and any spin stream). -/
theorem simulate_zero_games_or_no_bets (strategy : Strategy) (numGames : ℕ)
    (spins spins' : ℕ → Fin 38) :
    SimulateRoulette strategy 0 spins = strategy.initialBankroll ∧
    (strategy.bets = [] → SimulateRoulette strategy numGames spins' = strategy.initialBankroll) := by
  refine ⟨rfl, fun h => ?_⟩
  unfold SimulateRoulette
  rw [h]
  exact simulateRounds_nil_bets spins' numGames 0 _

/-- Claim C4 witness at a concrete strategy with an empty bet list. -/
theorem simulate_zero_games_or_no_bets_witness :
    SimulateRoulette ⟨42, []⟩ 0 (fun _ => 0) = 42 ∧
    SimulateRoulette ⟨42, []⟩ 5 (fun _ => 0) = 42 :=
  ⟨(simulate_zero_games_or_no_bets ⟨42, []⟩ 5 (fun _ => 0) (fun _ => 0)).1,
   (simulate_zero_games_or_no_bets ⟨42, []⟩ 5 (fun _ => 0) (fun _ => 0)).2 rfl⟩

/-- Claim C6: the wheel has exactly 38 pockets, the value 0 appears exactly
twice, and each value 1..36 appears exactly once — so a number bet on 0
matches 2 of the 38 pockets while a number bet on any value 1..36 matches
exactly 1. -/
theorem wheel_pocket_counts :
    NewRouletteWheel.numbers.length = 38 ∧
    NewRouletteWheel.numbers.count 0 = 2 ∧
    ∀ v : ℤ, 1 ≤ v → v ≤ 36 → NewRouletteWheel.numbers.count v = 1 := by
  refine ⟨by decide, by decide, ?_⟩
  intro v h1 h2
  interval_cases v <;> decide

/-- Claim C6 witness at the concrete pocket value 17. -/
theorem wheel_pocket_counts_witness : NewRouletteWheel.numbers.count 17 = 1 :=
  wheel_pocket_counts.2.2 17 (by norm_num) (by norm_num)

/-- Claim C8: the red and black lists are disjoint (a value the red test
accepts is rejected by the black test) and pocket 0 belongs to neither. -/
theorem red_black_disjoint :
    (∀ v : ℤ, contains redNumbers v = true → contains blackNumbers v = false) ∧
    contains redNumbers 0 = false ∧ contains blackNumbers 0 = false := by
  refine ⟨?_, by decide, by decide⟩
  intro v hv
  have hm : v ∈ redNumbers := (contains_eq_true_iff _ _).mp hv
  have hall : ∀ x ∈ redNumbers, contains blackNumbers x = false := by decide
  exact hall v hm

/-- Claim C8 witness at the concrete red pocket 3. -/
theorem red_black_disjoint_witness : contains blackNumbers 3 = false :=
  red_black_disjoint.1 3 (by decide)

/-- Claim C10: the parser accepts negative numbers without error, storing a
negative bankroll and a negative bet amount verbatim. -/
theorem parser_accepts_negative_numbers :
    ParseStrategy "bankroll: -5" = Except.ok ⟨-5, []⟩ ∧
    ParseStrategy "bet: red, 0, -5" = Except.ok ⟨0, [⟨"red", 0, -5⟩]⟩ :=
  ⟨by decide, by decide⟩
/-- Claim C2: settlement of a placed bet (pre-debit bankroll covers the
amount) against a pocket of the wheel follows the spec's payout table: the
result is the debited bankroll plus exactly the table's credit — amount × 36
for a matching number bet, amount × 2 for even on an even nonzero pocket, for
odd on an odd pocket, for red/black on membership in the fixed 18-member sets;
zero pockets never satisfy even/odd/red/black, and a losing bet receives no
credit while the debit stands. -/
theorem placed_bet_settlement (bankroll : ℚ) (bet : Bet) (w : ℤ)
    (hw : w ∈ NewRouletteWheel.numbers) (h : bet.amount ≤ bankroll) :
    placeBet bankroll bet w = bankroll - bet.amount + specCredit bet w := by
  obtain ⟨hw0, hw36⟩ := wheel_mem_bounds w hw
  have htm : Int.tmod w 2 = w % 2 := Int.tmod_eq_emod hw0 (by norm_num)
  have hnl : ¬ bankroll < bet.amount := not_lt.mpr h
  simp only [placeBet, specCredit, htm, hnl, if_false, ite_false]
  by_cases h1 : bet.type = "number"
  · by_cases h2 : w = bet.value
    · simp [h1, h2]
    · have h2' : ¬ bet.value = w := fun hh => h2 hh.symm
      simp [h1, h2, h2']
  · by_cases h3 : bet.type = "even"
    · by_cases h4 : (2 : ℤ) ∣ w ∧ ¬ w = 0
      · simp [h1, h3, h4]
      · simp [h1, h3, h4]
    · by_cases h5 : bet.type = "odd"
      · by_cases h6 : w % 2 = 1
        · have hnd : ¬ ((2 : ℤ) ∣ w) := by omega
          have hnz : ¬ w = 0 := by omega
          simp [h1, h3, h5, h6, hnd, hnz]
        · have hd : (2 : ℤ) ∣ w := by omega
          simp [h1, h3, h5, h6, hd]
      · have hred : contains redNumbers w = true ↔ w ∈ specRedSet := by
          rw [contains_eq_true_iff, redNumbers_eq_spec]
        have hblack : contains blackNumbers w = true ↔ w ∈ specBlackSet := by
          rw [contains_eq_true_iff, blackNumbers_eq_spec]
        by_cases h7 : bet.type = "red"
        · by_cases h8 : w ∈ specRedSet
          · simp [h1, h3, h5, h7, hred, h8]
          · simp [h1, h3, h5, h7, hred, h8]
        · by_cases h9 : bet.type = "black"
          · by_cases h10 : w ∈ specBlackSet
            · simp [h1, h3, h5, h7, h9, hblack, h10]
            · simp [h1, h3, h5, h7, h9, hblack, h10]
          · simp [h1, h3, h5, h7, h9]

/-- Claim C2 witness: a placed even bet of 5 on pocket 4 from a bankroll of
10 settles to the debited bankroll plus the table credit. -/
theorem placed_bet_settlement_witness :
    placeBet 10 ⟨"even", 0, 5⟩ 4 = 10 - 5 + specCredit ⟨"even", 0, 5⟩ 4 :=
  placed_bet_settlement 10 ⟨"even", 0, 5⟩ 4 (by decide) (by norm_num)

/-! Parser lemmas: one step of the line loop expressed with the spec-side
per-line error and per-line update, then the characterizations built on it. -/

lemma parseLines_cons (line : String) (rest : List String) (acc : Strategy) :
    parseLines (line :: rest) acc =
      match specLineError line with
      | some e => Except.error e
      | none => parseLines rest (specLineUpdate line acc) := by
  by_cases hb : goStartsWith (goTrim line) "bankroll:"
  · rcases hpf : goParseFloat (goTrim (strDrop (goTrim line) 9)) with _ | b <;>
      simp [parseLines, specLineError, specLineUpdate, hb, hpf]
  · by_cases hbet : goStartsWith (goTrim line) "bet:"
    · rcases hsp : splitOnChar ',' (strDrop (goTrim line) 4).data with
        _ | ⟨p0, _ | ⟨p1, _ | ⟨p2, _ | ⟨p3, tl⟩⟩⟩⟩
      · simp [parseLines, specLineError, specLineUpdate, hb, hbet, hsp]
      · simp [parseLines, specLineError, specLineUpdate, hb, hbet, hsp]
      · simp [parseLines, specLineError, specLineUpdate, hb, hbet, hsp]
      · rcases hv : goAtoi (goTrim ⟨p1⟩) with _ | v
        · simp [parseLines, specLineError, specLineUpdate, hb, hbet, hsp, hv]
        · rcases ha : goParseFloat (goTrim ⟨p2⟩) with _ | a <;>
            simp [parseLines, specLineError, specLineUpdate, hb, hbet, hsp, hv, ha]
      · simp [parseLines, specLineError, specLineUpdate, hb, hbet, hsp]
    · simp [parseLines, specLineError, specLineUpdate, hb, hbet]

lemma lastBankroll_step (line : String) (rest : List String) (s : Strategy) :
    lastBankroll (line :: rest) s.initialBankroll =
      lastBankroll rest (specLineUpdate line s).initialBankroll := by
  by_cases hb : goStartsWith (goTrim line) "bankroll:"
  · rcases hpf : goParseFloat (goTrim (strDrop (goTrim line) 9)) with _ | b <;>
      simp [lastBankroll, specLineUpdate, hb, hpf]
  · by_cases hbet : goStartsWith (goTrim line) "bet:"
    · rcases hsp : splitOnChar ',' (strDrop (goTrim line) 4).data with
        _ | ⟨p0, _ | ⟨p1, _ | ⟨p2, _ | ⟨p3, tl⟩⟩⟩⟩
      · simp [lastBankroll, specLineUpdate, hb, hbet, hsp]
      · simp [lastBankroll, specLineUpdate, hb, hbet, hsp]
      · simp [lastBankroll, specLineUpdate, hb, hbet, hsp]
      · rcases hv : goAtoi (goTrim ⟨p1⟩) with _ | v
        · simp [lastBankroll, specLineUpdate, hb, hbet, hsp, hv]
        · rcases ha : goParseFloat (goTrim ⟨p2⟩) with _ | a <;>
            simp [lastBankroll, specLineUpdate, hb, hbet, hsp, hv, ha]
      · simp [lastBankroll, specLineUpdate, hb, hbet, hsp]
    · simp [lastBankroll, specLineUpdate, hb, hbet]

lemma collectBets_step (line : String) (rest : List String) (s : Strategy) :
    s.bets ++ collectBets (line :: rest) = (specLineUpdate line s).bets ++ collectBets rest := by
  by_cases hb : goStartsWith (goTrim line) "bankroll:"
  · rcases hpf : goParseFloat (goTrim (strDrop (goTrim line) 9)) with _ | b <;>
      simp [collectBets, specLineUpdate, hb, hpf]
  · by_cases hbet : goStartsWith (goTrim line) "bet:"
    · rcases hsp : splitOnChar ',' (strDrop (goTrim line) 4).data with
        _ | ⟨p0, _ | ⟨p1, _ | ⟨p2, _ | ⟨p3, tl⟩⟩⟩⟩
      · simp [collectBets, specLineUpdate, hb, hbet, hsp]
      · simp [collectBets, specLineUpdate, hb, hbet, hsp]
      · simp [collectBets, specLineUpdate, hb, hbet, hsp]
      · rcases hv : goAtoi (goTrim ⟨p1⟩) with _ | v
        · simp [collectBets, specLineUpdate, hb, hbet, hsp, hv]
        · rcases ha : goParseFloat (goTrim ⟨p2⟩) with _ | a <;>
            simp [collectBets, specLineUpdate, hb, hbet, hsp, hv, ha]
      · simp [collectBets, specLineUpdate, hb, hbet, hsp]
    · simp [collectBets, specLineUpdate, hb, hbet]

lemma parseLines_ok_fields :
    ∀ (lines : List String) (acc s : Strategy), parseLines lines acc = .ok s →
      s.initialBankroll = lastBankroll lines acc.initialBankroll ∧
      s.bets = acc.bets ++ collectBets lines := by
  intro lines
  induction lines with
  | nil =>
    intro acc s h
    simp [parseLines] at h
    subst h
    simp [lastBankroll, collectBets]
  | cons line rest ih =>
    intro acc s h
    rw [parseLines_cons] at h
    rcases hse : specLineError line with _ | e
    · rw [hse] at h
      obtain ⟨h1, h2⟩ := ih (specLineUpdate line acc) s h
      refine ⟨?_, ?_⟩
      · rw [h1, lastBankroll_step]
      · rw [h2]
        exact (collectBets_step line rest acc).symm
    · rw [hse] at h
      simp at h

lemma parseLines_error_iff :
    ∀ (lines : List String) (acc : Strategy),
      (∃ e, parseLines lines acc = .error e) ↔
        ∃ line ∈ lines, (specLineError line).isSome = true := by
  intro lines
  induction lines with
  | nil => intro acc; simp [parseLines]
  | cons line rest ih =>
    intro acc
    rw [parseLines_cons]
    rcases hse : specLineError line with _ | e
    · simp [hse, ih (specLineUpdate line acc)]
    · simp [hse]

lemma parseLines_error_mem :
    ∀ (lines : List String) (acc : Strategy) (e : ParseError),
      parseLines lines acc = .error e → ∃ line ∈ lines, specLineError line = some e := by
  intro lines
  induction lines with
  | nil => intro acc e h; simp [parseLines] at h
  | cons line rest ih =>
    intro acc e h
    rw [parseLines_cons] at h
    rcases hse : specLineError line with _ | e'
    · rw [hse] at h
      obtain ⟨l, hl, hl2⟩ := ih _ _ h
      exact ⟨l, List.mem_cons_of_mem _ hl, hl2⟩
    · rw [hse] at h
      simp at h
      exact ⟨line, List.mem_cons_self _ _, by rw [hse, h]⟩

lemma parseLines_skip_unrecognized :
    ∀ (pre post : List String) (acc : Strategy) (line : String),
      goStartsWith (goTrim line) "bankroll:" = false →
      goStartsWith (goTrim line) "bet:" = false →
      parseLines (pre ++ line :: post) acc = parseLines (pre ++ post) acc := by
  intro pre
  induction pre with
  | nil =>
    intro post acc line hb hbet
    simp only [List.nil_append]
    rw [parseLines_cons]
    have hse : specLineError line = none := by simp [specLineError, hb, hbet]
    have hup : specLineUpdate line acc = acc := by simp [specLineUpdate, hb, hbet]
    rw [hse, hup]
  | cons p pr ih =>
    intro post acc line hb hbet
    simp only [List.cons_append]
    rw [parseLines_cons, parseLines_cons]
    rcases hse : specLineError p with _ | e
    · exact ih post (specLineUpdate p acc) line hb hbet
    · rfl

lemma lastBankroll_no_bankroll :
    ∀ (lines : List String) (d : ℚ),
      (∀ line ∈ lines, goStartsWith (goTrim line) "bankroll:" = false) →
      lastBankroll lines d = d := by
  intro lines
  induction lines with
  | nil => intro d _; rfl
  | cons line rest ih =>
    intro d h
    have hb := h line (List.mem_cons_self _ _)
    rw [lastBankroll]
    simp only [hb, Bool.false_eq_true, if_false]
    exact ih d (fun l hl => h l (List.mem_cons_of_mem _ hl))

/-- Claim C5: ParseStrategy fails exactly when some line of the input is bad
in the spec's sense — a `bankroll:` line whose numeric text is not a decimal
(InvalidBankroll), or a `bet:` line that does not split into exactly three
comma-separated fields (MalformedBet) or whose value field is not an integer
(InvalidBetValue) or whose amount field is not a decimal (InvalidBetAmount) —
and the error returned is the per-line error of one such line; moreover every
line that is neither a `bankroll:` nor a `bet:` line (blank or unrecognized)
is silently skipped by the line loop and contributes nothing. -/
theorem parse_error_characterization (input : String) :
    ((∃ e, ParseStrategy input = Except.error e) ↔
      ∃ line ∈ strSplit '\n' input, (specLineError line).isSome = true) ∧
    (∀ e, ParseStrategy input = Except.error e →
      ∃ line ∈ strSplit '\n' input, specLineError line = some e) ∧
    (∀ (pre post : List String) (acc : Strategy) (line : String),
      goStartsWith (goTrim line) "bankroll:" = false →
      goStartsWith (goTrim line) "bet:" = false →
      parseLines (pre ++ line :: post) acc = parseLines (pre ++ post) acc) :=
  ⟨parseLines_error_iff _ _, fun e => parseLines_error_mem _ _ e, parseLines_skip_unrecognized⟩

/-- Claim C5 witness: an unrecognized line between two recognized ones is
ignored by the line loop. -/
theorem parse_error_characterization_witness :
    parseLines (["bankroll: 100"] ++ "hello" :: ["bet: red, 0, 10"]) ⟨0, []⟩ =
      parseLines (["bankroll: 100"] ++ ["bet: red, 0, 10"]) ⟨0, []⟩ :=
  (parse_error_characterization "").2.2 ["bankroll: 100"] ["bet: red, 0, 10"] ⟨0, []⟩ "hello"
    (by decide) (by decide)

/-- Claim C7: a successful parse returns as `initialBankroll` the decimal of
the last recognized bankroll line (overwrite semantics; 0 when there is none)
and, unaffected by the bankroll lines, the bets collected from the bet lines
in declaration order. -/
theorem last_bankroll_wins (input : String) (s : Strategy)
    (h : ParseStrategy input = .ok s) :
    s.initialBankroll = lastBankroll (strSplit '\n' input) 0 ∧
    s.bets = collectBets (strSplit '\n' input) := by
  have hof := parseLines_ok_fields (strSplit '\n' input) ⟨0, []⟩ s h
  simpa using hof

/-- Claim C7 witness: with two bankroll lines (5 then 7) the parsed strategy
has bankroll 7 and the bet lines are unaffected. -/
theorem last_bankroll_wins_witness :
    (7 : ℚ) = lastBankroll (strSplit '\n' "bankroll: 5\nbankroll: 7\nbet: red, 0, 10") 0 ∧
    [({ type := "red", value := 0, amount := 10 } : Bet)] =
      collectBets (strSplit '\n' "bankroll: 5\nbankroll: 7\nbet: red, 0, 10") :=
  last_bankroll_wins "bankroll: 5\nbankroll: 7\nbet: red, 0, 10" ⟨7, [⟨"red", 0, 10⟩]⟩
    (by decide)

/-- Claim C9: when no line of the input is a bankroll line, a successful parse
returns `initialBankroll = 0` (the Go zero value) with the recognized bet
lines still appended in order. -/
theorem missing_bankroll_defaults_zero (input : String) (s : Strategy)
    (hno : ∀ line ∈ strSplit '\n' input, goStartsWith (goTrim line) "bankroll:" = false)
    (h : ParseStrategy input = .ok s) :
    s.initialBankroll = 0 ∧ s.bets = collectBets (strSplit '\n' input) := by
  obtain ⟨h1, h2⟩ := parseLines_ok_fields (strSplit '\n' input) ⟨0, []⟩ s h
  refine ⟨?_, by simpa using h2⟩
  rw [h1]
  simpa using lastBankroll_no_bankroll (strSplit '\n' input) _ hno

/-- Claim C9 witness: a bet-only input parses to bankroll 0 with the bet kept. -/
theorem missing_bankroll_defaults_zero_witness :
    (({ initialBankroll := 0, bets := [⟨"red", 0, 10⟩] } : Strategy)).initialBankroll = 0 ∧
    (({ initialBankroll := 0, bets := [⟨"red", 0, 10⟩] } : Strategy)).bets =
      collectBets (strSplit '\n' "bet: red, 0, 10") :=
  missing_bankroll_defaults_zero "bet: red, 0, 10" ⟨0, [⟨"red", 0, 10⟩]⟩ (by decide) (by decide)

end Roulette
